import Mathlib

/-!
Shallow embedding of the feature extractor in
`src/http_parsing/extractor.py` and of the batch pipeline driver in
`src/http_data_extraction.py`.

Modelling conventions:
* Python dicts are association lists `List (String × α)`; assignment
  `d[k] = v` is `assocPut` (overwrite in place, append if absent), which
  matches CPython insertion-order semantics.
* An HTML element is represented by its text content only
  (`Option String`, matching `element.text` which is a string or `None`);
  the third-party XPath engine is modelled as the abstract evaluation
  function stored in an `HtmlTree` (query string to node list, in
  document order).
* Python regular expressions are modelled for literal patterns:
  `re.search` finds the pattern anywhere in the text, `re.match` anchors
  it at the start.
* Raised `ValueError` / `KeyError` become `Except String`.
-/

/-- Element text as exposed by lxml: a string, or `None` when absent. -/
abbrev ElemText := Option String

/-- The parsed HTML document, abstracted to its XPath evaluator: a query
returns the matched elements (their texts) in document order. -/
structure HtmlTree where
  xpath : String → List ElemText

/-- One entry of a criteria dict, as built by `put_feature_criterion`:
always an `"xpath"` key, plus `"text_re_mode"` / `"text_re_pattern"`
keys exactly when the corresponding argument was not `None`. -/
structure Criterion where
  xpath : String
  text_re_mode : Option String
  text_re_pattern : Option String
  deriving Repr, DecidableEq

/-- A criteria dict (`feature_criteria` or `content_criteria`). -/
abbrev Criteria := List (String × Criterion)

/-- A scalar cell of a feature row: an integer count, or extracted text. -/
inductive Value where
  | int (n : Nat)
  | str (s : String)
  deriving Repr, DecidableEq

/-- A feature row (`data` in `extract_features_from_tree`). -/
abbrev Row := List (String × Value)

/-- Python dict assignment `d[name] = v`: overwrite the entry in place
when the key is present, append otherwise. -/
def assocPut {α : Type} (l : List (String × α)) (name : String) (v : α) :
    List (String × α) :=
  if l.any (fun p => p.1 = name) then
    l.map (fun p => if p.1 = name then (name, v) else p)
  else
    l ++ [(name, v)]

/-- Python dict read `d[name]` (as an `Option`). -/
def assocGet {α : Type} (l : List (String × α)) (name : String) : Option α :=
  (l.find? (fun p => p.1 = name)).map Prod.snd

/-- The keys of a dict, in insertion order. -/
def dictKeys {α : Type} (l : List (String × α)) : List String :=
  l.map Prod.fst

/-- `_custom_str` from extractor.py: `None` becomes the empty string,
a string is returned unchanged. -/
def custom_str (value : ElemText) : String :=
  match value with
  | none => ""
  | some s => s

/-- Executable check that `p` occurs as a contiguous run inside `l`. -/
def listInfix (p : List Char) : List Char → Bool
  | [] => p.isPrefixOf []
  | c :: t => p.isPrefixOf (c :: t) || listInfix p t

/-- Literal-pattern model of Python `re.search pattern text`: the pattern
occurs somewhere in the text. -/
def re_search (pattern text : String) : Bool :=
  listInfix pattern.toList text.toList

/-- Literal-pattern model of Python `re.match pattern text`: the pattern
occurs at the start of the text. -/
def re_match (pattern text : String) : Bool :=
  pattern.toList.isPrefixOf text.toList

/-- `put_feature_criterion` from extractor.py. -/
def put_feature_criterion (feature_criteria : Criteria) (name xpath : String)
    (re_mode re_pattern : Option String) : Criteria :=
  assocPut feature_criteria name
    { xpath := xpath, text_re_mode := re_mode, text_re_pattern := re_pattern }

/-- The per-criterion count computed by the first loop of
`extract_features_from_tree`: select the matcher from `text_re_mode`
(raising for an unrecognized mode), then count the matched elements whose
text satisfies the pattern; with no configured filter (one of the two
keys absent) the count is the plain node-list length. -/
def extractCount (feature : Criterion) (html_tree : HtmlTree) :
    Except String Value :=
  let elements := html_tree.xpath feature.xpath
  match feature.text_re_mode, feature.text_re_pattern with
  | some mode, some pat =>
    if mode = "match" then
      Except.ok (Value.int (elements.foldl
        (fun acc el => if re_match pat (custom_str el) then acc + 1 else acc) 0))
    else if mode = "search" then
      Except.ok (Value.int (elements.foldl
        (fun acc el => if re_search pat (custom_str el) then acc + 1 else acc) 0))
    else
      Except.error ("Incorrect text_re_mode " ++ mode)
  | _, _ => Except.ok (Value.int elements.length)

/-- The per-criterion string computed by the second loop of
`extract_features_from_tree`: start from `""` and append
`custom_str element.text` for every matched element. -/
def extractContent (feature : Criterion) (html_tree : HtmlTree) : Value :=
  Value.str ((html_tree.xpath feature.xpath).foldl
    (fun acc el => acc ++ custom_str el) "")

/-- `extract_features_from_tree` from extractor.py: build the row by
iterating the count criteria (dict order) and then the content criteria,
writing each result under the criterion name. -/
def extract_features_from_tree (feature_criteria content_criteria : Criteria)
    (html_tree : HtmlTree) : Except String Row := do
  let data ← feature_criteria.foldlM
    (fun d p => do
      let v ← extractCount p.2 html_tree
      pure (assocPut d p.1 v))
    ([] : Row)
  pure (content_criteria.foldl
    (fun d p => assocPut d p.1 (extractContent p.2 html_tree)) data)

/-- The extractor object. `feature_criteria` is
`_extracted_feature_criteria`, `content_criteria` is
`_extracted_content_criteria`, `meta_features` holds the contents of the
meta-feature list, `feature_counts` the accumulated rows. -/
structure Extractor where
  feature_criteria : Criteria
  content_criteria : Criteria
  meta_features : List String
  feature_counts : List Row
  deriving Repr, DecidableEq

/-- A freshly constructed extractor (no config file, default meta list).
Aliasing of the shared default `meta_features=[]` list is modelled
separately below for claim C10; here the list contents are empty. -/
def emptyExtractor : Extractor :=
  { feature_criteria := [], content_criteria := [],
    meta_features := [], feature_counts := [] }

/-- `_validate_new_feature` from extractor.py, including the faulty
first check, which reads
`name in self._extracted_feature_criteria or self._extracted_content_criteria`:
the second operand is the truthiness of the content dict, not a
membership test. -/
def validate_new_feature (e : Extractor) (name : String)
    (xpath : Option String) (text_re_mode text_re_pattern : Option String) :
    Except String Unit :=
  if e.feature_criteria.any (fun p => p.1 = name) || !e.content_criteria.isEmpty then
    Except.error ("There is already a feature named " ++ name ++ ".")
  else if xpath.isNone then
    Except.error ("An XPath expression is required for criteria.")
  else if (text_re_mode.isNone && text_re_pattern.isSome)
      || (text_re_mode.isSome && text_re_pattern.isNone) then
    Except.error ("text_re_mode and text_re_pattern must both be defined or None")
  else if text_re_mode.isSome
      && !(text_re_mode = some "match" || text_re_mode = some "search") then
    Except.error ("text_re_mode should be None, match, or search")
  else
    Except.ok ()

/-- `add_meta_feature` from extractor.py (append if not present). -/
def add_meta_feature (e : Extractor) (name : String) : Extractor :=
  if e.meta_features.contains name then e
  else { e with meta_features := e.meta_features ++ [name] }

/-- `add_extracted_content` from extractor.py. Note that the source
stores the new criterion in `self._extracted_feature_criteria` (the
count partition), not in `self._extracted_content_criteria`. -/
def add_extracted_content (e : Extractor) (name xpath : String) :
    Except String Extractor := do
  let _ ← validate_new_feature e name (some xpath) none none
  pure { e with feature_criteria :=
    put_feature_criterion e.feature_criteria name xpath none none }

/-- `add_extracted_feature` from extractor.py. -/
def add_extracted_feature (e : Extractor) (name xpath : String)
    (text_re_mode text_re_pattern : Option String) : Except String Extractor := do
  let _ ← validate_new_feature e name (some xpath) text_re_mode text_re_pattern
  pure { e with feature_criteria :=
    put_feature_criterion e.feature_criteria name xpath text_re_mode text_re_pattern }

/-- `all_feature_names` from extractor.py: one loop per collection,
appending the names. -/
def all_feature_names (e : Extractor) : List String :=
  let feature_names := e.meta_features.foldl (fun acc n => acc ++ [n]) []
  let feature_names := e.feature_criteria.foldl (fun acc p => acc ++ [p.1]) feature_names
  e.content_criteria.foldl (fun acc p => acc ++ [p.1]) feature_names

/-- `_append_features` from extractor.py: merge the supplied meta
features into the extracted row, then append the row to
`feature_counts`. -/
def append_features (e : Extractor) (extracted_features : Row)
    (meta_features : Row) : Extractor :=
  let row := meta_features.foldl (fun d p => assocPut d p.1 p.2) extracted_features
  { e with feature_counts := e.feature_counts ++ [row] }

/-- `accumulate_features_from_string` from extractor.py, with the
string-to-tree step (lxml parse) factored out: the document argument is
the already parsed tree. Returns the updated extractor together with the
value the Python method returns (`self.feature_counts` after the
append). -/
def accumulate_features_from_string (e : Extractor) (html_tree : HtmlTree)
    (meta_features : Row) : Except String (Extractor × List Row) := do
  let extracted ← extract_features_from_tree
    e.feature_criteria e.content_criteria html_tree
  let e2 := append_features e extracted meta_features
  pure (e2, e2.feature_counts)

/-- One configuration entry, as a JSON object: a field is `none` when the
key is absent (reading an absent mandatory key raises `KeyError`). -/
structure ConfigFeature where
  name : Option String
  xpath : Option String
  text_re_mode : Option String
  text_re_pattern : Option String
  deriving Repr, DecidableEq

/-- The parsed configuration document (`rubric` in extractor.py). -/
structure Rubric where
  features_to_count : List ConfigFeature
  text_to_extract : List ConfigFeature
  deriving Repr, DecidableEq

/-- Python mandatory-key read `feature[key]`: `KeyError` when absent. -/
def getKey (v : Option String) (key : String) : Except String String :=
  match v with
  | some s => Except.ok s
  | none => Except.error ("KeyError: " ++ key)

/-- `load_feature_criteria` from extractor.py: iterate the two entry
lists, calling `put_feature_criterion` for each; optional keys are read
with a presence test, mandatory keys (`name`, `xpath`) raise on absence.
No other validation is performed. Returns both updated dicts. -/
def load_feature_criteria (rubric : Rubric)
    (feature_criteria extracted_content : Criteria) :
    Except String (Criteria × Criteria) := do
  let fc ← rubric.features_to_count.foldlM
    (fun acc f => do
      let n ← getKey f.name ("name")
      let x ← getKey f.xpath ("xpath")
      pure (put_feature_criterion acc n x f.text_re_mode f.text_re_pattern))
    feature_criteria
  let cc ← rubric.text_to_extract.foldlM
    (fun acc f => do
      let n ← getKey f.name ("name")
      let x ← getKey f.xpath ("xpath")
      pure (put_feature_criterion acc n x none none))
    extracted_content
  pure (fc, cc)

/-- `load_extracted_features` from extractor.py: load into the two
instance dicts. -/
def load_extracted_features (e : Extractor) (rubric : Rubric) :
    Except String Extractor := do
  let r ← load_feature_criteria rubric e.feature_criteria e.content_criteria
  pure { e with feature_criteria := r.1, content_criteria := r.2 }

/-- The per-record map of the batch pipeline in
`src/http_data_extraction.py`: decode the payload (base64 and utf-8
decoding plus HTML parsing are external, so the record carries its
parsed tree) and pair the result of `accumulate_features_from_string`
with the record label. -/
def pipeline_record_step (e : Extractor) (html_tree : HtmlTree)
    (label : String) : Except String (Extractor × List Row × String) := do
  let r ← accumulate_features_from_string e html_tree []
  pure (r.1, r.2, label)

/-- A criterion for which `extractCount` cannot raise: either the text
filter is not (fully) configured, or the mode is one of the two
recognized values. -/
def validMode (c : Criterion) : Bool :=
  !(c.text_re_mode.isSome && c.text_re_pattern.isSome)
    || (c.text_re_mode = some ("match") || c.text_re_mode = some ("search"))

/-- Every criterion of the dict has a recognized mode. -/
def validCriteria (fc : Criteria) : Bool :=
  fc.all (fun p => validMode p.2)

/-- The pure value `extractCount` computes for a criterion whose mode is
valid (helper for stating results; for an unrecognized mode, where the
source raises, the `search` branch value is returned and never used). -/
def countValue (feature : Criterion) (html_tree : HtmlTree) : Value :=
  let elements := html_tree.xpath feature.xpath
  match feature.text_re_mode, feature.text_re_pattern with
  | some mode, some pat =>
    if mode = "match" then
      Value.int (elements.foldl
        (fun acc el => if re_match pat (custom_str el) then acc + 1 else acc) 0)
    else
      Value.int (elements.foldl
        (fun acc el => if re_search pat (custom_str el) then acc + 1 else acc) 0)
  | _, _ => Value.int elements.length

/-- The row `extract_features_from_tree` returns when no criterion
raises: count criteria written first, then content criteria. -/
def pureRow (feature_criteria content_criteria : Criteria)
    (html_tree : HtmlTree) : Row :=
  content_criteria.foldl
    (fun d p => assocPut d p.1 (extractContent p.2 html_tree))
    (feature_criteria.foldl
      (fun d p => assocPut d p.1 (countValue p.2 html_tree)) [])

/-- The row `append_features` stores: the extracted row with the
call-time meta features merged in. -/
def mergedRow (feature_criteria content_criteria : Criteria)
    (html_tree : HtmlTree) (meta_features : Row) : Row :=
  meta_features.foldl (fun d p => assocPut d p.1 p.2)
    (pureRow feature_criteria content_criteria html_tree)

/-- Driver repeating `accumulate_features_from_string` over a batch of
(parsed document, call-time meta features) pairs. -/
def accumulate_many (e : Extractor) (inputs : List (HtmlTree × Row)) :
    Except String Extractor :=
  inputs.foldlM
    (fun acc p => do
      let r ← accumulate_features_from_string acc p.1 p.2
      pure r.1)
    e

/-- The dicts `load_feature_criteria` produces when every entry carries
its mandatory keys (helper for stating the loader result). -/
def loadPure (rubric : Rubric) (feature_criteria extracted_content : Criteria) :
    Criteria × Criteria :=
  (rubric.features_to_count.foldl
    (fun acc f => put_feature_criterion acc (f.name.getD ("")) (f.xpath.getD (""))
      f.text_re_mode f.text_re_pattern)
    feature_criteria,
   rubric.text_to_extract.foldl
    (fun acc f => put_feature_criterion acc (f.name.getD ("")) (f.xpath.getD (""))
      none none)
    extracted_content)

/-!
Model of the CPython default-argument semantics of
`def __init__(self, config_file_path=None, meta_features=[])`: the `[]`
is one list object, created when the `def` is evaluated, and every
construction that omits the argument binds `self._meta_features` to that
same object. `add_meta_feature` mutates the bound object in place.
-/

/-- What `self._meta_features` refers to: the single shared default list
object, or a caller-supplied list of its own. -/
inductive MetaStore where
  | sharedDefault
  | own (l : List String)
  deriving Repr, DecidableEq

/-- The interpreter state relevant to the shared default: the current
contents of the default-argument list object. -/
structure PyState where
  defaultMeta : List String
  deriving Repr, DecidableEq

/-- The default list object starts out empty. -/
def initPyState : PyState := { defaultMeta := [] }

/-- An extractor instance, with the meta-feature reference explicit. -/
structure ExtractorObj where
  feature_criteria : Criteria
  content_criteria : Criteria
  metaStore : MetaStore
  feature_counts : List Row
  deriving Repr, DecidableEq

/-- `CountingFeatureExtractor.__init__` without a config file: passing
no `meta_features` argument binds the shared default list object. -/
def initExtractorObj (meta_features : Option (List String)) : ExtractorObj :=
  { feature_criteria := [], content_criteria := [],
    metaStore := match meta_features with
      | none => MetaStore.sharedDefault
      | some l => MetaStore.own l,
    feature_counts := [] }

/-- The list `self._meta_features` currently denotes. -/
def metaContents (s : PyState) (e : ExtractorObj) : List String :=
  match e.metaStore with
  | MetaStore.sharedDefault => s.defaultMeta
  | MetaStore.own l => l

/-- `add_meta_feature` on an instance: appends to the list object the
instance refers to (mutating the shared default when aliased). -/
def add_meta_feature_obj (s : PyState) (e : ExtractorObj) (name : String) :
    PyState × ExtractorObj :=
  match e.metaStore with
  | MetaStore.sharedDefault =>
    if s.defaultMeta.contains name then (s, e)
    else ({ defaultMeta := s.defaultMeta ++ [name] }, e)
  | MetaStore.own l =>
    if l.contains name then (s, e)
    else (s, { e with metaStore := MetaStore.own (l ++ [name]) })

/-- `all_feature_names` on an instance, reading the meta list through
the reference. -/
def all_feature_names_obj (s : PyState) (e : ExtractorObj) : List String :=
  let feature_names := (metaContents s e).foldl (fun acc n => acc ++ [n]) []
  let feature_names := e.feature_criteria.foldl (fun acc p => acc ++ [p.1]) feature_names
  e.content_criteria.foldl (fun acc p => acc ++ [p.1]) feature_names

/-! Concrete fixtures used by counterexamples and witnesses. -/

/-- A config whose only content is one text-extraction entry. -/
def contentOnlyRubric : Rubric :=
  { features_to_count := [],
    text_to_extract :=
      [{ name := some ("c"), xpath := some ("//p"),
         text_re_mode := none, text_re_pattern := none }] }

/-- A config with two count entries sharing the name `a`. -/
def dupRubric : Rubric :=
  { features_to_count :=
      [{ name := some ("a"), xpath := some ("//x"),
         text_re_mode := none, text_re_pattern := none },
       { name := some ("a"), xpath := some ("//y"),
         text_re_mode := none, text_re_pattern := none }],
    text_to_extract := [] }

/-- A config whose count entry carries an unrecognized match mode. -/
def badModeRubric : Rubric :=
  { features_to_count :=
      [{ name := some ("b"), xpath := some ("//x"),
         text_re_mode := some ("glob"), text_re_pattern := some ("p") }],
    text_to_extract := [] }

/-- A document whose only title node holds the text `Hello`. -/
def titleTree : HtmlTree :=
  { xpath := fun q => if q = ("//title") then [some ("Hello")] else [] }

/-- A document with two form nodes (no text) and a title. -/
def formTree : HtmlTree :=
  { xpath := fun q =>
      if q = ("//form") then [none, none]
      else if q = ("//title") then [some ("Hello")]
      else [] }

/-- A document with four paragraph nodes carrying assorted texts. -/
def paraTree : HtmlTree :=
  { xpath := fun q =>
      if q = ("//p") then [some ("abc"), some ("zab"), none, some ("ab")]
      else [] }

/-- An extractor with one plain count criterion, as the batch pipeline
builds from its config file. -/
def pipelineExtractor : Extractor :=
  { feature_criteria :=
      [("num_forms",
        { xpath := ("//form"), text_re_mode := none, text_re_pattern := none })],
    content_criteria := [], meta_features := [], feature_counts := [] }

/-- The extractor reached by `add_meta_feature _ "x"` followed by
`add_extracted_feature _ "x" "//a"` on a fresh instance. -/
def eDup : Extractor :=
  { feature_criteria :=
      [("x", { xpath := ("//a"), text_re_mode := none, text_re_pattern := none })],
    content_criteria := [], meta_features := ["x"], feature_counts := [] }

/-- An extractor exercising all three criterion shapes: a plain count,
a filtered count in each mode, and a content criterion. -/
def richExtractor : Extractor :=
  { feature_criteria :=
      [("num_forms",
        { xpath := ("//form"), text_re_mode := none, text_re_pattern := none }),
       ("p_search",
        { xpath := ("//p"), text_re_mode := some ("search"),
          text_re_pattern := some ("ab") }),
       ("p_match",
        { xpath := ("//p"), text_re_mode := some ("match"),
          text_re_pattern := some ("ab") })],
    content_criteria :=
      [("title_text",
        { xpath := ("//title"), text_re_mode := none, text_re_pattern := none })],
    meta_features := [], feature_counts := [] }

/-- A document serving both xpath shapes of `richExtractor`. -/
def richTree : HtmlTree :=
  { xpath := fun q =>
      if q = ("//form") then [none, none]
      else if q = ("//p") then [some ("abc"), some ("zab"), none, some ("ab")]
      else if q = ("//title") then [some ("Hello")]
      else [] }

/-! Dictionary lemmas. -/

theorem assocGet_cons {α : Type} (p : String × α) (t : List (String × α)) (k : String) :
    assocGet (p :: t) k = if p.1 = k then some p.2 else assocGet t k := by
  by_cases h : p.1 = k
  · simp [assocGet, List.find?_cons_of_pos, h]
  · simp [assocGet, List.find?_cons_of_neg, h]

theorem any_key_iff {α : Type} (l : List (String × α)) (name : String) :
    (l.any fun p => p.1 = name) = true ↔ name ∈ dictKeys l := by
  simp [dictKeys, List.any_eq_true]

theorem assocGet_map_overwrite_self {α : Type} (l : List (String × α))
    (name : String) (v : α) (h : (l.any fun p => p.1 = name) = true) :
    assocGet (l.map fun p => if p.1 = name then (name, v) else p) name = some v := by
  induction l with
  | nil => simp at h
  | cons p t ih =>
    by_cases hp : p.1 = name
    · rw [List.map_cons, if_pos hp, assocGet_cons]
      simp
    · rw [List.map_cons, if_neg hp, assocGet_cons, if_neg hp]
      apply ih
      simpa [List.any_cons, hp] using h

theorem assocGet_append_single_self {α : Type} (l : List (String × α))
    (name : String) (v : α) (h : (l.any fun p => p.1 = name) = false) :
    assocGet (l ++ [(name, v)]) name = some v := by
  induction l with
  | nil => simp [assocGet_cons]
  | cons p t ih =>
    rw [List.any_cons] at h
    rcases Bool.or_eq_false_iff.mp h with ⟨h1, h2⟩
    have hp : ¬ p.1 = name := by simpa using h1
    rw [List.cons_append, assocGet_cons, if_neg hp]
    exact ih h2

theorem assocGet_assocPut_self {α : Type} (l : List (String × α))
    (name : String) (v : α) :
    assocGet (assocPut l name v) name = some v := by
  unfold assocPut
  by_cases h : (l.any fun p => p.1 = name) = true
  · rw [if_pos h]
    exact assocGet_map_overwrite_self l name v h
  · rw [if_neg h]
    exact assocGet_append_single_self l name v
      (by rw [← Bool.not_eq_true]; exact h)

theorem assocGet_map_overwrite_ne {α : Type} (l : List (String × α))
    (name k : String) (v : α) (hne : ¬ name = k) :
    assocGet (l.map fun p => if p.1 = name then (name, v) else p) k = assocGet l k := by
  induction l with
  | nil => rfl
  | cons p t ih =>
    by_cases hp : p.1 = name
    · have hpk : ¬ p.1 = k := by rw [hp]; exact hne
      rw [List.map_cons, if_pos hp, assocGet_cons, assocGet_cons,
        if_neg hne, if_neg hpk]
      exact ih
    · rw [List.map_cons, if_neg hp, assocGet_cons, assocGet_cons]
      by_cases hk : p.1 = k
      · rw [if_pos hk, if_pos hk]
      · rw [if_neg hk, if_neg hk]
        exact ih

theorem assocGet_append_single_ne {α : Type} (l : List (String × α))
    (name k : String) (v : α) (hne : ¬ name = k) :
    assocGet (l ++ [(name, v)]) k = assocGet l k := by
  induction l with
  | nil => simp [assocGet_cons, assocGet, hne]
  | cons p t ih =>
    rw [List.cons_append, assocGet_cons, assocGet_cons]
    by_cases hk : p.1 = k
    · rw [if_pos hk, if_pos hk]
    · rw [if_neg hk, if_neg hk]
      exact ih

theorem assocGet_assocPut_ne {α : Type} (l : List (String × α))
    (name k : String) (v : α) (hne : k ≠ name) :
    assocGet (assocPut l name v) k = assocGet l k := by
  have hne2 : ¬ name = k := fun hc => hne hc.symm
  unfold assocPut
  by_cases h : (l.any fun p => p.1 = name) = true
  · rw [if_pos h]
    exact assocGet_map_overwrite_ne l name k v hne2
  · rw [if_neg h]
    exact assocGet_append_single_ne l name k v hne2

theorem dictKeys_map_overwrite {α : Type} (l : List (String × α))
    (name : String) (v : α) :
    dictKeys (l.map fun p => if p.1 = name then (name, v) else p) = dictKeys l := by
  unfold dictKeys
  rw [List.map_map]
  apply List.map_congr_left
  intro p _
  by_cases hp : p.1 = name
  · simp [Function.comp, hp]
  · simp [Function.comp, hp]

theorem mem_dictKeys_assocPut {α : Type} (l : List (String × α))
    (name : String) (v : α) (k : String) :
    k ∈ dictKeys (assocPut l name v) ↔ (k = name ∨ k ∈ dictKeys l) := by
  unfold assocPut
  by_cases h : (l.any fun p => p.1 = name) = true
  · rw [if_pos h, dictKeys_map_overwrite]
    have hn : name ∈ dictKeys l := (any_key_iff l name).mp h
    constructor
    · exact Or.inr
    · rintro (rfl | hk)
      · exact hn
      · exact hk
  · rw [if_neg h]
    simp [dictKeys]
    tauto

/-! Fold lemmas. -/

theorem assocGet_foldl_assocPut_not_mem {α β : Type} (g : String × β → α)
    (l : List (String × β)) (k : String) (hk : k ∉ dictKeys l) :
    ∀ init : List (String × α),
      assocGet (l.foldl (fun d p => assocPut d p.1 (g p)) init) k = assocGet init k := by
  induction l with
  | nil => intro init; rfl
  | cons p t ih =>
    intro init
    rw [dictKeys, List.map_cons, List.mem_cons] at hk
    push_neg at hk
    rw [List.foldl_cons, ih (by exact hk.2) (assocPut init p.1 (g p)),
      assocGet_assocPut_ne init p.1 k (g p) hk.1]

theorem assocGet_foldl_assocPut_mem {α β : Type} (g : String × β → α)
    (l : List (String × β)) (k : String) (b : β)
    (hnd : (dictKeys l).Nodup) (hmem : (k, b) ∈ l) :
    ∀ init : List (String × α),
      assocGet (l.foldl (fun d p => assocPut d p.1 (g p)) init) k = some (g (k, b)) := by
  induction l with
  | nil => cases hmem
  | cons p t ih =>
    intro init
    rw [dictKeys, List.map_cons, List.nodup_cons] at hnd
    rcases List.mem_cons.mp hmem with heq | hmem2
    · rw [List.foldl_cons]
      have hp1 : p.1 = k := by rw [← heq]
      have hk : k ∉ dictKeys t := by
        rw [← hp1]
        exact hnd.1
      rw [assocGet_foldl_assocPut_not_mem g t k hk (assocPut init p.1 (g p)), ← heq]
      exact assocGet_assocPut_self init k (g (k, b))
    · rw [List.foldl_cons]
      exact ih hnd.2 hmem2 (assocPut init p.1 (g p))

theorem mem_dictKeys_foldl_assocPut {α β : Type} (g : String × β → α)
    (l : List (String × β)) (k : String) :
    ∀ init : List (String × α),
      k ∈ dictKeys (l.foldl (fun d p => assocPut d p.1 (g p)) init) ↔
        (k ∈ dictKeys init ∨ k ∈ dictKeys l) := by
  induction l with
  | nil => intro init; simp [dictKeys]
  | cons p t ih =>
    intro init
    rw [List.foldl_cons, ih (assocPut init p.1 (g p)), mem_dictKeys_assocPut]
    simp only [dictKeys, List.map_cons, List.mem_cons]
    tauto

theorem foldl_append_singleton {α β : Type} (g : β → α) (l : List β) :
    ∀ init : List α, l.foldl (fun acc b => acc ++ [g b]) init = init ++ l.map g := by
  induction l with
  | nil => intro init; simp
  | cons b t ih => intro init; simp [ih]

theorem foldlM_eq_ok {β γ : Type} (f : γ → β → Except String γ) (g : γ → β → γ)
    (l : List β) (h : ∀ b ∈ l, ∀ c, f c b = Except.ok (g c b)) :
    ∀ init : γ, l.foldlM f init = Except.ok (l.foldl g init) := by
  induction l with
  | nil => intro init; rfl
  | cons b t ih =>
    intro init
    rw [List.foldlM_cons, h b (List.mem_cons_self b t) init]
    have hrec : ∀ b2 ∈ t, ∀ c, f c b2 = Except.ok (g c b2) :=
      fun b2 hb2 c => h b2 (List.mem_cons_of_mem b hb2) c
    rw [List.foldl_cons]
    simpa using ih hrec (g init b)

/-! Bridges from the embedded extraction code to its pure value. -/

theorem extractCount_eq_ok (c : Criterion) (tree : HtmlTree)
    (h : validMode c = true) :
    extractCount c tree = Except.ok (countValue c tree) := by
  unfold extractCount countValue
  unfold validMode at h
  cases hm : c.text_re_mode with
  | none => cases hp : c.text_re_pattern <;> simp [hm, hp]
  | some mode =>
    cases hp : c.text_re_pattern with
    | none => simp [hm, hp]
    | some pat =>
      rw [hm, hp] at h
      simp only [Option.isSome_some, Bool.and_self, Bool.not_true, Bool.false_or,
        Bool.or_eq_true, decide_eq_true_eq, Option.some.injEq] at h
      rcases h with h | h <;> simp [hm, hp, h]

theorem extract_eq_ok (fc cc : Criteria) (tree : HtmlTree)
    (h : validCriteria fc = true) :
    extract_features_from_tree fc cc tree = Except.ok (pureRow fc cc tree) := by
  unfold extract_features_from_tree pureRow
  have hpt : ∀ p ∈ fc, ∀ d : Row,
      (do
        let v ← extractCount p.2 tree
        pure (assocPut d p.1 v)) = Except.ok (assocPut d p.1 (countValue p.2 tree)) := by
    intro p hp d
    rw [extractCount_eq_ok p.2 tree (by
      unfold validCriteria at h
      exact List.all_eq_true.mp h p hp)]
    rfl
  rw [foldlM_eq_ok _ (fun d p => assocPut d p.1 (countValue p.2 tree)) fc hpt []]
  rfl

theorem foldl_count_eq_countP {α : Type} (q : α → Bool) (l : List α) :
    l.foldl (fun acc el => if q el then acc + 1 else acc) 0 = l.countP q := by
  have general : ∀ n : Nat,
      l.foldl (fun acc el => if q el then acc + 1 else acc) n = n + l.countP q := by
    induction l with
    | nil => intro n; simp
    | cons a t ih =>
      intro n
      rw [List.foldl_cons, List.countP_cons]
      by_cases h : q a = true
      · rw [if_pos h, if_pos h, ih]
        omega
      · rw [if_neg h, if_neg h, ih]
        omega
  simpa using general 0

theorem listInfix_iff (p l : List Char) : listInfix p l = true ↔ p <:+: l := by
  induction l with
  | nil =>
    rw [listInfix]
    rw [ List.isPrefixOf_iff_prefix]
    rw [ List.prefix_nil, List.infix_nil]
  | cons c t ih =>
    rw [listInfix, Bool.or_eq_true]
    rw [ List.isPrefixOf_iff_prefix]
    rw [ List.infix_cons_iff, ih]

theorem re_search_eq_decide (pat text : String) :
    re_search pat text = decide (pat.toList <:+: text.toList) := by
  have h := listInfix_iff pat.toList text.toList
  rw [re_search]
  by_cases hb : pat.toList <:+: text.toList
  · rw [h.mpr hb, decide_eq_true hb]
  · have hf : ¬ listInfix pat.toList text.toList = true := fun hc => hb (h.mp hc)
    rw [Bool.not_eq_true] at hf
    rw [hf, decide_eq_false hb]

theorem re_match_eq_decide (pat text : String) :
    re_match pat text = decide (pat.toList <+: text.toList) := by
  rw [re_match]
  by_cases hb : pat.toList <+: text.toList
  · rw [decide_eq_true hb]
    rw [← List.isPrefixOf_iff_prefix] at hb
    exact hb
  · rw [decide_eq_false hb]
    have hf : ¬ pat.toList.isPrefixOf text.toList = true := by
      rw [ List.isPrefixOf_iff_prefix]
      exact hb
    rw [Bool.not_eq_true] at hf
    exact hf

theorem extractContent_eq_join (c : Criterion) (tree : HtmlTree) :
    extractContent c tree =
      Value.str (String.join ((tree.xpath c.xpath).map custom_str)) := by
  rw [extractContent, String.join, List.foldl_map]

theorem mem_dictKeys_mergedRow (fc cc : Criteria) (tree : HtmlTree)
    (meta : Row) (k : String) :
    k ∈ dictKeys (mergedRow fc cc tree meta) ↔
      (k ∈ dictKeys fc ∨ k ∈ dictKeys cc ∨ k ∈ dictKeys meta) := by
  rw [mergedRow, pureRow]
  rw [mem_dictKeys_foldl_assocPut (fun p => p.2) meta k]
  rw [mem_dictKeys_foldl_assocPut (fun p => extractContent p.2 tree) cc k]
  rw [mem_dictKeys_foldl_assocPut (fun p => countValue p.2 tree) fc k]
  simp [dictKeys]
  tauto

theorem except_ok_bind {α β : Type} (a : α) (g : α → Except String β) :
    (Except.ok a >>= g) = g a := rfl

theorem except_pure_bind {α β : Type} (a : α) (g : α → Except String β) :
    ((pure a : Except String α) >>= g) = g a := rfl

theorem accumulate_eq_ok (e : Extractor) (tree : HtmlTree) (meta : Row)
    (h : validCriteria e.feature_criteria = true) :
    accumulate_features_from_string e tree meta =
      Except.ok
        ({ e with feature_counts := e.feature_counts ++
            [mergedRow e.feature_criteria e.content_criteria tree meta] },
          e.feature_counts ++
            [mergedRow e.feature_criteria e.content_criteria tree meta]) := by
  unfold accumulate_features_from_string
  rw [extract_eq_ok _ _ _ h]
  rfl

theorem accumulate_many_eq (fc cc : Criteria) (mf : List String)
    (h : validCriteria fc = true) (inputs : List (HtmlTree × Row)) :
    ∀ counts : List Row,
      accumulate_many
        { feature_criteria := fc, content_criteria := cc,
          meta_features := mf, feature_counts := counts } inputs =
        Except.ok
          { feature_criteria := fc, content_criteria := cc,
            meta_features := mf,
            feature_counts :=
              counts ++ inputs.map (fun inp => mergedRow fc cc inp.1 inp.2) } := by
  induction inputs with
  | nil =>
    intro counts
    rw [accumulate_many, List.foldlM_nil]
    simp only [List.map_nil, List.append_nil]
    rfl
  | cons inp rest ih =>
    intro counts
    rw [accumulate_many, List.foldlM_cons]
    rw [accumulate_eq_ok
      { feature_criteria := fc, content_criteria := cc,
        meta_features := mf, feature_counts := counts } inp.1 inp.2 h]
    rw [except_ok_bind, except_pure_bind]
    have ih2 := ih (counts ++ [mergedRow fc cc inp.1 inp.2])
    rw [accumulate_many] at ih2
    exact ih2.trans (by simp)

theorem load_eq_ok (rub : Rubric) (fc cc : Criteria)
    (h1 : ∀ f ∈ rub.features_to_count, f.name.isSome = true ∧ f.xpath.isSome = true)
    (h2 : ∀ f ∈ rub.text_to_extract, f.name.isSome = true ∧ f.xpath.isSome = true) :
    load_feature_criteria rub fc cc = Except.ok (loadPure rub fc cc) := by
  unfold load_feature_criteria loadPure
  have e1 : ∀ f ∈ rub.features_to_count, ∀ acc : Criteria,
      (do
        let n ← getKey f.name ("name")
        let x ← getKey f.xpath ("xpath")
        pure (put_feature_criterion acc n x f.text_re_mode f.text_re_pattern)) =
        Except.ok (put_feature_criterion acc (f.name.getD ("")) (f.xpath.getD (""))
          f.text_re_mode f.text_re_pattern) := by
    intro f hf acc
    obtain ⟨hn, hx⟩ := h1 f hf
    obtain ⟨n, hn2⟩ := Option.isSome_iff_exists.mp hn
    obtain ⟨x, hx2⟩ := Option.isSome_iff_exists.mp hx
    rw [hn2, hx2]
    rfl
  have e2 : ∀ f ∈ rub.text_to_extract, ∀ acc : Criteria,
      (do
        let n ← getKey f.name ("name")
        let x ← getKey f.xpath ("xpath")
        pure (put_feature_criterion acc n x none none)) =
        Except.ok (put_feature_criterion acc (f.name.getD ("")) (f.xpath.getD (""))
          none none) := by
    intro f hf acc
    obtain ⟨hn, hx⟩ := h2 f hf
    obtain ⟨n, hn2⟩ := Option.isSome_iff_exists.mp hn
    obtain ⟨x, hx2⟩ := Option.isSome_iff_exists.mp hx
    rw [hn2, hx2]
    rfl
  rw [foldlM_eq_ok _ _ _ e1 fc, except_ok_bind]
  rw [foldlM_eq_ok _ _ _ e2 cc, except_ok_bind]
  rfl

theorem all_feature_names_eq (e : Extractor) :
    all_feature_names e =
      e.meta_features ++ dictKeys e.feature_criteria ++ dictKeys e.content_criteria := by
  unfold all_feature_names
  simp only [foldl_append_singleton]
  simp [dictKeys]

theorem all_feature_names_obj_eq (s : PyState) (e : ExtractorObj) :
    all_feature_names_obj s e =
      metaContents s e ++ dictKeys e.feature_criteria ++ dictKeys e.content_criteria := by
  unfold all_feature_names_obj
  simp only [foldl_append_singleton]
  simp [dictKeys]

/-! Claim theorems. -/

/-- C1: the claim says registering a criterion under a fresh name always
succeeds and a configuration error is raised exactly when the name is
already used in either partition. The code evaluates the truthiness of
the whole content partition instead of a membership test, so after
loading one content criterion named `c`, registering the fresh name `f`
raises the duplicate-name error. -/
theorem c1_fresh_name_rejected_when_content_nonempty :
    (do
      let e ← load_extracted_features emptyExtractor contentOnlyRubric
      add_extracted_feature e ("f") ("//a") none none) =
      Except.error ("There is already a feature named f.") := by
  rfl

/-- C2: the claim says a criterion registered through
`add_extracted_content` produces the concatenated text of the matched
nodes. The code stores the criterion in the count partition
(`_extracted_feature_criteria`), so a document whose only title node
holds `Hello` yields the integer count `1`, not the string `Hello`. -/
theorem c2_add_extracted_content_yields_count :
    (do
      let e ← add_extracted_content emptyExtractor ("title_text") ("//title")
      pure (e.content_criteria,
        ← extract_features_from_tree e.feature_criteria e.content_criteria titleTree)) =
      Except.ok (([] : Criteria), [(("title_text" : String), Value.int 1)]) := by
  rfl

/-- C9: the claim says the batch pipeline extracts without touching the
extractor's in-memory row list. The per-record map in
`src/http_data_extraction.py` calls `accumulate_features_from_string`,
which appends the extracted row to `feature_counts` (growing it from
empty to one row) and returns the accumulated list. -/
theorem c9_pipeline_step_appends_row :
    pipelineExtractor.feature_counts = [] ∧
    pipeline_record_step pipelineExtractor formTree ("lbl") =
      Except.ok
        ({ pipelineExtractor with
            feature_counts := [[(("num_forms" : String), Value.int 2)]] },
          [[(("num_forms" : String), Value.int 2)]], ("lbl")) := by
  exact ⟨rfl, rfl⟩

/-- C6 counterexample: a configuration whose two count entries share the
name `a` loads without any error; the later entry silently overwrites
the earlier one. -/
theorem c6_counterexample_duplicate_names_load_silently :
    load_feature_criteria dupRubric [] [] =
      Except.ok
        ([(("a" : String),
           { xpath := ("//y"), text_re_mode := none, text_re_pattern := none })],
          ([] : Criteria)) := by
  rfl

/-- C6 amended: the loader performs no validation beyond reading the
mandatory `name` and `xpath` keys: whenever every entry carries those
keys it succeeds (duplicate names, inconsistent filter pairs and
unrecognized modes included, the later duplicate overwriting the
earlier), and an unrecognized match mode raises only when extraction
runs. -/
theorem c6_loader_defers_validation (rub : Rubric)
    (h1 : ∀ f ∈ rub.features_to_count, f.name.isSome = true ∧ f.xpath.isSome = true)
    (h2 : ∀ f ∈ rub.text_to_extract, f.name.isSome = true ∧ f.xpath.isSome = true) :
    load_feature_criteria rub [] [] = Except.ok (loadPure rub [] []) ∧
    (∀ tree : HtmlTree,
      extractCount
        { xpath := ("//x"), text_re_mode := some ("glob"),
          text_re_pattern := some ("p") } tree =
        Except.error ("Incorrect text_re_mode glob")) := by
  refine ⟨load_eq_ok rub [] [] h1 h2, ?_⟩
  intro tree
  rfl

/-- C6 witness: the amended statement applied to the configuration with
the unrecognized mode `glob`. -/
theorem c6_witness :
    load_feature_criteria badModeRubric [] [] =
      Except.ok (loadPure badModeRubric [] []) ∧
    (∀ tree : HtmlTree,
      extractCount
        { xpath := ("//x"), text_re_mode := some ("glob"),
          text_re_pattern := some ("p") } tree =
        Except.error ("Incorrect text_re_mode glob")) :=
  c6_loader_defers_validation badModeRubric (by decide) (by decide)

/-- C8 counterexample: a meta feature and a count criterion may share a
name (validation never compares the two), so `all_feature_names` can
return a list with duplicates. -/
theorem c8_counterexample_duplicate_feature_names :
    add_extracted_feature (add_meta_feature emptyExtractor ("x")) ("x") ("//a")
        none none = Except.ok eDup ∧
    all_feature_names eDup = [("x" : String), ("x" : String)] ∧
    ¬ (all_feature_names eDup).Nodup := by
  refine ⟨rfl, rfl, by decide⟩

/-- C8 amended: `all_feature_names` returns the meta-feature names in
declaration order, then the count-partition names, then the
content-partition names; the result is not duplicate-free in general
(a meta-feature name may coincide with a criterion name). -/
theorem c8_feature_names_order (e : Extractor) :
    all_feature_names e =
      e.meta_features ++ dictKeys e.feature_criteria ++
        dictKeys e.content_criteria :=
  all_feature_names_eq e

/-- C10: two extractors constructed without an explicit `meta_features`
argument alias the single default list object, so a meta feature added
through one instance appears in the other instance's
`all_feature_names`. -/
theorem c10_default_meta_list_shared_across_instances
    (s : PyState) (name : String) :
    name ∈ all_feature_names_obj
      (add_meta_feature_obj s (initExtractorObj none) name).1
      (initExtractorObj none) := by
  rw [all_feature_names_obj_eq]
  unfold add_meta_feature_obj initExtractorObj metaContents
  by_cases h : s.defaultMeta.contains name
  · simp only [h, if_pos]
    simp [dictKeys]
    exact List.elem_iff.mp h
  · simp only [h]
    simp [dictKeys]

/-- C3: for a count criterion with no text filter, `extract` succeeds
and reports, under the criterion's name, the number of elements its
XPath matched (the names of the criteria set are assumed unique across
the two partitions, per the data model, and every configured mode is
recognized). -/
theorem c3_count_no_filter_reports_match_count
    (fc cc : Criteria) (tree : HtmlTree) (name : String) (c : Criterion)
    (hvalid : validCriteria fc = true)
    (hnodup : (dictKeys fc).Nodup)
    (hmem : (name, c) ∈ fc)
    (hmode : c.text_re_mode = none)
    (hpat : c.text_re_pattern = none)
    (hcc : name ∉ dictKeys cc) :
    extract_features_from_tree fc cc tree = Except.ok (pureRow fc cc tree) ∧
    assocGet (pureRow fc cc tree) name =
      some (Value.int (tree.xpath c.xpath).length) := by
  refine ⟨extract_eq_ok fc cc tree hvalid, ?_⟩
  unfold pureRow
  rw [assocGet_foldl_assocPut_not_mem (fun p => extractContent p.2 tree) cc name hcc]
  rw [assocGet_foldl_assocPut_mem (fun p => countValue p.2 tree) fc name c hnodup hmem []]
  simp [countValue, hmode, hpat]

/-- C3 witness: the plain count criterion `num_forms` of
`richExtractor` on `richTree` reports the two matched form nodes. -/
theorem c3_witness :
    extract_features_from_tree richExtractor.feature_criteria
        richExtractor.content_criteria richTree =
      Except.ok (pureRow richExtractor.feature_criteria
        richExtractor.content_criteria richTree) ∧
    assocGet (pureRow richExtractor.feature_criteria
        richExtractor.content_criteria richTree) ("num_forms") =
      some (Value.int (richTree.xpath ("//form")).length) :=
  c3_count_no_filter_reports_match_count
    richExtractor.feature_criteria richExtractor.content_criteria richTree
    ("num_forms")
    { xpath := ("//form"), text_re_mode := none, text_re_pattern := none }
    (by rfl) (by decide) (by decide) rfl rfl (by decide)

theorem countValue_filter_eq (mode pat x : String) (tree : HtmlTree) :
    countValue { xpath := x, text_re_mode := some mode,
                 text_re_pattern := some pat } tree =
      if mode = "match" then
        Value.int ((tree.xpath x).countP
          (fun el => re_match pat (custom_str el)))
      else
        Value.int ((tree.xpath x).countP
          (fun el => re_search pat (custom_str el))) := by
  simp only [countValue]
  by_cases h : mode = "match"
  · rw [if_pos h, if_pos h, foldl_count_eq_countP]
  · rw [if_neg h, if_neg h, foldl_count_eq_countP]

/-- C4: for a count criterion with a text filter, `extract` succeeds
and reports, under the criterion's name, in `search` mode the number of
matched elements whose text contains the pattern anywhere, and in
`match` mode the number whose text starts with the pattern (a missing
text counting as the empty string, and patterns read literally). -/
theorem c4_count_with_filter_counts_matching_texts
    (fc cc : Criteria) (tree : HtmlTree) (name : String) (c : Criterion)
    (mode pat : String)
    (hvalid : validCriteria fc = true)
    (hnodup : (dictKeys fc).Nodup)
    (hmem : (name, c) ∈ fc)
    (hmode : c.text_re_mode = some mode)
    (hpat : c.text_re_pattern = some pat)
    (hcc : name ∉ dictKeys cc) :
    extract_features_from_tree fc cc tree = Except.ok (pureRow fc cc tree) ∧
    (mode = "search" →
      assocGet (pureRow fc cc tree) name =
        some (Value.int ((tree.xpath c.xpath).countP
          (fun el => decide (pat.toList <:+: (custom_str el).toList))))) ∧
    (mode = "match" →
      assocGet (pureRow fc cc tree) name =
        some (Value.int ((tree.xpath c.xpath).countP
          (fun el => decide (pat.toList <+: (custom_str el).toList))))) := by
  obtain ⟨cx, cm, cp⟩ := c
  simp only at hmode hpat ⊢
  subst hmode
  subst hpat
  refine ⟨extract_eq_ok fc cc tree hvalid, ?_, ?_⟩
  · intro hs
    subst hs
    unfold pureRow
    rw [assocGet_foldl_assocPut_not_mem (fun p => extractContent p.2 tree) cc name hcc]
    rw [assocGet_foldl_assocPut_mem (fun p => countValue p.2 tree) fc name _ hnodup hmem []]
    simp only []
    rw [countValue_filter_eq ("search") pat cx tree]
    rw [if_neg (by decide : ¬ ("search" : String) = ("match" : String))]
    have hcong : ∀ el ∈ tree.xpath cx,
        (re_search pat (custom_str el) = true) ↔
          (decide (pat.toList <:+: (custom_str el).toList) = true) := by
      intro el _
      rw [re_search_eq_decide pat (custom_str el)]
    rw [List.countP_congr hcong]
  · intro hm
    subst hm
    unfold pureRow
    rw [assocGet_foldl_assocPut_not_mem (fun p => extractContent p.2 tree) cc name hcc]
    rw [assocGet_foldl_assocPut_mem (fun p => countValue p.2 tree) fc name _ hnodup hmem []]
    simp only []
    rw [countValue_filter_eq ("match") pat cx tree]
    rw [if_pos (rfl : ("match" : String) = ("match" : String))]
    have hcong : ∀ el ∈ tree.xpath cx,
        (re_match pat (custom_str el) = true) ↔
          (decide (pat.toList <+: (custom_str el).toList) = true) := by
      intro el _
      rw [re_match_eq_decide pat (custom_str el)]
    rw [List.countP_congr hcong]

/-- C4 witness: the `search`-mode criterion `p_search` of
`richExtractor` (pattern `ab`) on `richTree`. -/
theorem c4_witness :
    extract_features_from_tree richExtractor.feature_criteria
        richExtractor.content_criteria richTree =
      Except.ok (pureRow richExtractor.feature_criteria
        richExtractor.content_criteria richTree) ∧
    (("search" : String) = "search" →
      assocGet (pureRow richExtractor.feature_criteria
          richExtractor.content_criteria richTree) ("p_search") =
        some (Value.int ((richTree.xpath ("//p")).countP
          (fun el => decide (("ab" : String).toList <:+: (custom_str el).toList))))) ∧
    (("search" : String) = "match" →
      assocGet (pureRow richExtractor.feature_criteria
          richExtractor.content_criteria richTree) ("p_search") =
        some (Value.int ((richTree.xpath ("//p")).countP
          (fun el => decide (("ab" : String).toList <+: (custom_str el).toList))))) :=
  c4_count_with_filter_counts_matching_texts
    richExtractor.feature_criteria richExtractor.content_criteria richTree
    ("p_search")
    { xpath := ("//p"), text_re_mode := some ("search"),
      text_re_pattern := some ("ab") }
    ("search") ("ab")
    (by rfl) (by decide) (by decide) rfl rfl (by decide)

/-- C5: for a content criterion (one actually present in the content
partition), `extract` succeeds and reports, under the criterion's name,
the concatenation in document order of each matched element's text,
an element without text contributing the empty string. -/
theorem c5_content_concatenates_texts
    (fc cc : Criteria) (tree : HtmlTree) (name : String) (c : Criterion)
    (hvalid : validCriteria fc = true)
    (hnodupcc : (dictKeys cc).Nodup)
    (hmem : (name, c) ∈ cc) :
    extract_features_from_tree fc cc tree = Except.ok (pureRow fc cc tree) ∧
    assocGet (pureRow fc cc tree) name =
      some (Value.str (String.join ((tree.xpath c.xpath).map custom_str))) := by
  refine ⟨extract_eq_ok fc cc tree hvalid, ?_⟩
  unfold pureRow
  rw [assocGet_foldl_assocPut_mem (fun p => extractContent p.2 tree) cc name c
    hnodupcc hmem]
  simp [extractContent_eq_join]

/-- C5 witness: the content criterion `title_text` of `richExtractor`
on `richTree`. -/
theorem c5_witness :
    extract_features_from_tree richExtractor.feature_criteria
        richExtractor.content_criteria richTree =
      Except.ok (pureRow richExtractor.feature_criteria
        richExtractor.content_criteria richTree) ∧
    assocGet (pureRow richExtractor.feature_criteria
        richExtractor.content_criteria richTree) ("title_text") =
      some (Value.str (String.join ((richTree.xpath ("//title")).map custom_str))) :=
  c5_content_concatenates_texts
    richExtractor.feature_criteria richExtractor.content_criteria richTree
    ("title_text")
    { xpath := ("//title"), text_re_mode := none, text_re_pattern := none }
    (by rfl) (by decide) (by decide)

/-- C7: accumulating K documents on a fresh accumulator stores exactly
one row per document, and every stored row's key set is exactly the
declared criterion names of both partitions plus the meta-feature names
supplied at that call. -/
theorem c7_rows_have_exact_keys (e : Extractor) (inputs : List (HtmlTree × Row))
    (hvalid : validCriteria e.feature_criteria = true)
    (hempty : e.feature_counts = []) :
    accumulate_many e inputs =
      Except.ok
        { feature_criteria := e.feature_criteria,
          content_criteria := e.content_criteria,
          meta_features := e.meta_features,
          feature_counts := inputs.map
            (fun inp => mergedRow e.feature_criteria e.content_criteria
              inp.1 inp.2) } ∧
    (inputs.map
      (fun inp => mergedRow e.feature_criteria e.content_criteria
        inp.1 inp.2)).length = inputs.length ∧
    ∀ inp ∈ inputs, ∀ k : String,
      k ∈ dictKeys (mergedRow e.feature_criteria e.content_criteria
        inp.1 inp.2) ↔
        (k ∈ dictKeys e.feature_criteria ∨ k ∈ dictKeys e.content_criteria ∨
          k ∈ dictKeys inp.2) := by
  obtain ⟨fc, cc, mf, counts⟩ := e
  simp only at hvalid hempty ⊢
  subst hempty
  refine ⟨?_, List.length_map _ _, ?_⟩
  · simpa using accumulate_many_eq fc cc mf hvalid inputs []
  · intro inp _ k
    exact mem_dictKeys_mergedRow fc cc inp.1 inp.2 k

/-- C7 witness: one accumulated document with one meta feature on
`pipelineExtractor`. -/
theorem c7_witness :
    accumulate_many pipelineExtractor
        [(formTree, [(("src" : String), Value.str ("u"))])] =
      Except.ok
        { feature_criteria := pipelineExtractor.feature_criteria,
          content_criteria := pipelineExtractor.content_criteria,
          meta_features := pipelineExtractor.meta_features,
          feature_counts :=
            [(formTree, [(("src" : String), Value.str ("u"))])].map
              (fun inp => mergedRow pipelineExtractor.feature_criteria
                pipelineExtractor.content_criteria inp.1 inp.2) } ∧
    ([(formTree, [(("src" : String), Value.str ("u"))])].map
      (fun inp => mergedRow pipelineExtractor.feature_criteria
        pipelineExtractor.content_criteria inp.1 inp.2)).length =
      [(formTree, [(("src" : String), Value.str ("u"))])].length ∧
    ∀ inp ∈ [(formTree, [(("src" : String), Value.str ("u"))])], ∀ k : String,
      k ∈ dictKeys (mergedRow pipelineExtractor.feature_criteria
        pipelineExtractor.content_criteria inp.1 inp.2) ↔
        (k ∈ dictKeys pipelineExtractor.feature_criteria ∨
          k ∈ dictKeys pipelineExtractor.content_criteria ∨
          k ∈ dictKeys inp.2) :=
  c7_rows_have_exact_keys pipelineExtractor
    [(formTree, [(("src" : String), Value.str ("u"))])] (by rfl) (by rfl)
